import Mathlib

/-!
# DocSuite — verification of the extraction facade

A shallow embedding of `src/DocSuite.ts` (the full-featured variant of the
extraction module). External effects — the format parsers (mammoth, xlsx,
node-pptx-parser), the Poppler command-line tools, sharp, and the
filesystem — are modelled as explicit oracles (`Env`, `PdfEnv`, `PageEnv`)
whose every fallible operation returns `Except Thrown α`; a thrown
JavaScript value is a `Thrown` (an `Error` carrying a message, or any other
value with its string coercion). Code that can reject is embedded as a
function into `Except Thrown (List ExtractionResult)`; a `try`/`catch`
whose handler cannot itself throw is the `tryCatch` combinator.

String primitives used by the source (`path.basename`, `path.extname`,
`toLowerCase`, `trim`, `startsWith`, the `/Pages:\s+(\d+)/` regex) are
embedded as list-of-char computations restricted to ASCII behaviour, which
is sufficient for every path and message the theorems touch.
-/

namespace DocSuite

/-- A thrown JavaScript value: either an `Error` (whose `.message` the code
reads) or any other value (for which the code falls back to a generic
message, or to `String(error)` in the post-processor handler). -/
inductive Thrown where
  | error (msg : String)
  | other (s : String)
deriving Repr, DecidableEq

/-- `e instanceof Error ? e.message : fallback`. -/
def Thrown.msgOr (fallback : String) : Thrown → String
  | .error m => m
  | .other _ => fallback

/-- `e instanceof Error ? e.message : String(e)`. -/
def Thrown.toStr : Thrown → String
  | .error m => m
  | .other s => s

/-- `try { body } catch (e) { return handler(e) }` for a handler that cannot
itself throw (every catch block in the source only builds a value and logs). -/
def tryCatch {α : Type} (body : Except Thrown α) (handler : Thrown → α) : Except Thrown α :=
  match body with
  | .ok a => .ok a
  | .error e => .ok (handler e)

theorem tryCatch_isOk {α : Type} (body : Except Thrown α) (handler : Thrown → α) :
    ∃ a, tryCatch body handler = .ok a := by
  cases body <;> exact ⟨_, rfl⟩

/-! ## String primitives (ASCII model of the JS/Node operations used) -/

/-- ASCII lowercasing, the behaviour of `toLowerCase` on the extensions and
paths this development touches. -/
def jsToLower (s : String) : String := ⟨s.data.map Char.toLower⟩

/-- ASCII whitespace recognised by both the regex class `\s` and
`String.prototype.trim` (the inputs here are ASCII reports and documents). -/
def isJsWs (c : Char) : Bool :=
  c = ' ' || c = '\t' || c = '\n' || c = '\r' || c = '\x0b' || c = '\x0c'

/-- `String.prototype.trim`. -/
def jsTrim (s : String) : String :=
  ⟨((s.data.dropWhile isJsWs).reverse.dropWhile isJsWs).reverse⟩

def isPrefixCs : List Char → List Char → Bool
  | [], _ => true
  | _ :: _, [] => false
  | p :: ps, c :: cs => p = c && isPrefixCs ps cs

/-- `s.startsWith(pre)`. -/
def jsStartsWith (s pre : String) : Bool := isPrefixCs pre.data s.data

def basenameCs : List Char → List Char → List Char
  | [], acc => acc.reverse
  | '/' :: rest, _ => basenameCs rest []
  | c :: rest, acc => basenameCs rest (c :: acc)

/-- `path.basename` (POSIX, paths without a trailing slash — every call site
passes a file path). -/
def basename (p : String) : String := ⟨basenameCs p.data []⟩

def extScan : List Char → List Char → Option (List Char)
  | [], _ => none
  | '.' :: rest, acc => if rest = [] then none else some ('.' :: acc)
  | c :: rest, acc => extScan rest (c :: acc)

/-- `path.extname`: the suffix of the base name from its last dot, empty when
there is no dot or the dot is the leading character (dotfiles). -/
def extname (p : String) : String :=
  match extScan (basename p).data.reverse [] with
  | some cs => ⟨cs⟩
  | none => ""

/-- `DocSuite.#ext`: `path.extname(p).toLowerCase()`. -/
def extOf (p : String) : String := jsToLower (extname p)

/-! ## The `/Pages:\s+(\d+)/` page-count regex -/

def digitsToNat (ds : List Char) : Nat :=
  ds.foldl (fun a c => a * 10 + (c.toNat - 48)) 0

/-- Attempt the pattern `Pages:\s+(\d+)` anchored at the head of the list:
the literal `Pages:`, at least one whitespace, then a maximal digit run
(the greedy capture that `parseInt` consumes). -/
def matchPagesAt (cs : List Char) : Option Nat :=
  match cs with
  | 'P' :: 'a' :: 'g' :: 'e' :: 's' :: ':' :: rest =>
    if (rest.takeWhile isJsWs).isEmpty then none
    else
      let ds := (rest.dropWhile isJsWs).takeWhile Char.isDigit
      if ds.isEmpty then none else some (digitsToNat ds)
  | _ => none

/-- Leftmost match of `/Pages:\s+(\d+)/` in the metadata report. -/
def findPages : List Char → Option Nat
  | [] => none
  | c :: cs =>
    match matchPagesAt (c :: cs) with
    | some n => some n
    | none => findPages cs

def pagesCount (s : String) : Option Nat := findPages s.data

/-- The page count `extractPdf` derives from the `pdfInfo` result: `0` when
the result is not a string, when no line matches, or when the line says `0`. -/
def infoPageCount (info : Option String) : Nat :=
  match info with
  | none => 0
  | some s =>
    match pagesCount s with
    | none => 0
    | some n => n

/-! ## Data model -/

inductive ContentType where
  | text
  | csv
  | image
deriving Repr, DecidableEq

/-- The sole output record. `type = none` is the absent/null sentinel that
signals an error record. -/
structure ExtractionResult where
  type : Option ContentType
  fileName : String
  page : Nat
  contents : Option String := none
  error : Option String := none
  isFullPage : Option Bool := none
deriving Repr, DecidableEq

/-- An error record `{ type: null, fileName, page, error }`. -/
def errRec (fn : String) (pn : Nat) (msg : String) : ExtractionResult :=
  { type := none, fileName := fn, page := pn, error := some msg }

/-! ## Oracles for the external world -/

/-- A `Buffer`: its length and its base64 rendering are all the code observes. -/
structure Buffer where
  len : Nat
  b64 : String
deriving Repr, DecidableEq

/-- The workbook object `XLSX.readFile` returns: the declared sheet list and
the (possibly throwing) `sheet_to_csv` serialization of each sheet. -/
structure Workbook where
  sheetNames : List String
  sheetToCsv : String → Except Thrown String

/-- Per-page outcomes of every awaited operation inside `extractPdf`'s page
loop, in source order. `imagePrefixBase` is the base name of the random
`pdf-images-…-p<n>` prefix used to filter the scratch directory listing. -/
structure PageEnv where
  progressCb : Except Thrown Unit
  mkdirCairo : Except Thrown Unit
  cairo : Except Thrown Unit
  access : Except Thrown Unit
  readJpeg : Except Thrown Buffer
  rmJpeg : Except Thrown Unit
  sharpEnc : Buffer → Except Thrown Buffer
  pdfToText : Except Thrown String
  mkdirImages : Except Thrown Unit
  pdfImages : Except Thrown Unit
  readdir : Except Thrown (List String)
  imagePrefixBase : String
  readImage : String → Except Thrown Buffer
  rmImage : String → Except Thrown Unit

/-- The Poppler-facing oracle: `pdfInfo` yields a string report (`some s`)
or a non-string value (`none`), or throws; each page has its own `PageEnv`. -/
structure PdfEnv where
  pdfInfo : Except Thrown (Option String)
  page : Nat → PageEnv

/-- The whole external world seen by `extract`. -/
structure Env where
  mammoth : String → Except Thrown String
  xlsxRead : String → Except Thrown Workbook
  pptxParse : String → Except Thrown (List (List String))
  pdf : PdfEnv

/-! ## Options -/

inductive ImageFormat where
  | native
  | jpeg
  | png
deriving Repr, DecidableEq

/-- `PdfExtractionOptions` after destructuring defaults. `imageFormat` only
selects command-line flags of the external tool and does not shape the
result records, which are determined by the scratch-directory oracle. -/
structure PdfOptions where
  imageFormat : ImageFormat := .native
  fullPageImage : Bool := false
deriving Repr, DecidableEq

/-- `ExtractionOptions`. `extension = none` models an absent property; the
code's truthiness test additionally ignores a present empty string. -/
structure ExtractionOptions where
  extension : Option String := none
  pdf : Option PdfOptions := none
  hasProgressCallback : Bool := false

/-! ## Post-processor registry -/

/-- A JavaScript value usable as a registered context, with its truthiness. -/
inductive JsVal where
  | num (n : Int)
  | str (s : String)
  | bool (b : Bool)
  | nullV
  | undefV
  | obj (id : Nat)
deriving Repr, DecidableEq

def JsVal.truthy : JsVal → Bool
  | .num n => n ≠ 0
  | .str s => s ≠ ""
  | .bool b => b
  | .nullV => false
  | .undefV => false
  | .obj _ => true

/-- A processor observes its `this` binding (`some v` — invoked via
`.call(v, results)`; `none` — invoked unbound) and the result sequence. -/
abbrev Processor :=
  Option JsVal → List ExtractionResult → Except Thrown (List ExtractionResult)

/-- Internal storage format (`PostProcessorContext`); an absent `context`
property is `JsVal.undefV`. -/
structure PostProcessorContext where
  processor : Processor
  context : JsVal := .undefV

/-- `PostProcessorInput`: a plain function, or `{handler, context}` where an
absent `context` property reads as `undefined`. -/
inductive PostProcessorInput where
  | fn (p : Processor)
  | obj (handler : Processor) (context : JsVal)

/-- The branch on `typeof input === 'function'` in `#setPostProcessor`. -/
def toCtx : PostProcessorInput → PostProcessorContext
  | .fn p => { processor := p }
  | .obj h c => { processor := h, context := c }

/-- The `Map<string, PostProcessorContext>` static registry, as an
association list with JS `Map` update/delete/get semantics. -/
abbrev Registry := List (String × PostProcessorContext)

def regGet (reg : Registry) (k : String) : Option PostProcessorContext :=
  match reg with
  | [] => none
  | (k', v) :: rest => if k' = k then some v else regGet rest k

def regSet (reg : Registry) (k : String) (v : PostProcessorContext) : Registry :=
  match reg with
  | [] => [(k, v)]
  | (k', v') :: rest => if k' = k then (k, v) :: rest else (k', v') :: regSet rest k v

def regDelete (reg : Registry) (k : String) : Registry :=
  match reg with
  | [] => []
  | (k', v') :: rest => if k' = k then regDelete rest k else (k', v') :: regDelete rest k

/-- `DocSuite.#setPostProcessor`. -/
def setPostProcessorInternal (extension : String) (input : PostProcessorInput)
    (reg : Registry) : Registry :=
  regSet reg extension (toCtx input)

/-- The `startsWith('.') ? ext : '.' + ext` normalization followed by
`toLowerCase`, shared by `setPostProcessor` and `clearPostProcessor`. -/
def normalizeExt (extension : String) : String :=
  jsToLower (if jsStartsWith extension "." then extension else "." ++ extension)

/-- `DocSuite.setPostProcessor`. -/
def setPostProcessor (extension : String) (input : PostProcessorInput)
    (reg : Registry) : Registry :=
  setPostProcessorInternal (normalizeExt extension) input reg

/-- `DocSuite.setDocxPostProcessor`. -/
def setDocxPostProcessor (input : PostProcessorInput) (reg : Registry) : Registry :=
  setPostProcessorInternal ".docx" input reg

/-- `DocSuite.setXlsxPostProcessor`: registers under `.xlsx` then `.xls`. -/
def setXlsxPostProcessor (input : PostProcessorInput) (reg : Registry) : Registry :=
  setPostProcessorInternal ".xls" input (setPostProcessorInternal ".xlsx" input reg)

/-- `DocSuite.setPptxPostProcessor`. -/
def setPptxPostProcessor (input : PostProcessorInput) (reg : Registry) : Registry :=
  setPostProcessorInternal ".pptx" input reg

/-- `DocSuite.setPdfPostProcessor`. -/
def setPdfPostProcessor (input : PostProcessorInput) (reg : Registry) : Registry :=
  setPostProcessorInternal ".pdf" input reg

/-- `DocSuite.clearPostProcessor`. -/
def clearPostProcessor (extension : String) (reg : Registry) : Registry :=
  regDelete reg (normalizeExt extension)

/-- `DocSuite.clearAllPostProcessors`. -/
def clearAllPostProcessors (_reg : Registry) : Registry := []

/-- The `config.context ? processor.call(config.context, results)
: processor(results)` invocation: bound exactly when the stored context is
truthy. -/
def invokeProcessor (cfg : PostProcessorContext) (results : List ExtractionResult) :
    Except Thrown (List ExtractionResult) :=
  if cfg.context.truthy then cfg.processor (some cfg.context) results
  else cfg.processor none results

/-- The catch block of `#applyPostProcessor`: mutate the first result's
`error` field (when any result exists) and return the original sequence. -/
def postFailure (results : List ExtractionResult) (e : Thrown) : List ExtractionResult :=
  match results with
  | [] => []
  | r :: rest => { r with error := some ("Post-processor error: " ++ e.toStr) } :: rest

/-- `DocSuite.#applyPostProcessor`. -/
def applyPostProcessor (reg : Registry) (ext : String)
    (results : List ExtractionResult) : Except Thrown (List ExtractionResult) :=
  match regGet reg ext with
  | none => .ok results
  | some cfg => tryCatch (invokeProcessor cfg results) (fun e => postFailure results e)

/-! ## Per-format extractors -/

def docxFallbackMsg : String := "An unknown error occurred while parsing the .docx file."
def xlsxFallbackMsg : String := "An unknown error occurred while parsing the .xlsx file."
def pptxFallbackMsg : String := "An unknown error occurred while parsing the .pptx file."
def pdfFallbackMsg : String := "An unknown error occurred while parsing the .pdf file."

/-- `DocSuite.extractDocx`. -/
def extractDocx (env : Env) (filePath : String) : Except Thrown (List ExtractionResult) :=
  tryCatch
    (match env.mammoth filePath with
     | .error e => .error e
     | .ok value =>
       .ok [{ type := some .text, fileName := basename filePath, page := 1,
              contents := some (jsTrim value) }])
    (fun e => [errRec (basename filePath) 1 (e.msgOr docxFallbackMsg)])

/-- The `wb.SheetNames.map((name, index) => …)` body: serialization of each
sheet in declared order, aborting at the first throwing serialization
(which then escapes to the surrounding catch). -/
def sheetResults (wb : Workbook) (fn : String) :
    List String → Nat → Except Thrown (List ExtractionResult)
  | [], _ => .ok []
  | name :: rest, i =>
    match wb.sheetToCsv name with
    | .error e => .error e
    | .ok csv =>
      match sheetResults wb fn rest (i + 1) with
      | .error e => .error e
      | .ok more =>
        .ok ({ type := some .csv, fileName := fn, page := i + 1,
               contents := some csv } :: more)

/-- `DocSuite.extractXlsx` (the `cellText`/`cellFormula`/`cellDates`/`cellNF`
read flags configure the parser oracle and do not appear in the results). -/
def extractXlsx (env : Env) (filePath : String) : Except Thrown (List ExtractionResult) :=
  tryCatch
    (match env.xlsxRead filePath with
     | .error e => .error e
     | .ok wb => sheetResults wb (basename filePath) wb.sheetNames 0)
    (fun e => [errRec (basename filePath) 1 (e.msgOr xlsxFallbackMsg)])

/-- `slide.text.join('\n')`. -/
def joinNl : List String → String
  | [] => ""
  | [s] => s
  | s :: rest => s ++ "\n" ++ joinNl rest

/-- The `slides.map((slide, index) => …)` body. -/
def slideResults (fn : String) : List (List String) → Nat → List ExtractionResult
  | [], _ => []
  | slide :: rest, i =>
    { type := some .text, fileName := fn, page := i + 1,
      contents := some (joinNl slide) } :: slideResults fn rest (i + 1)

/-- `DocSuite.extractPptx`. -/
def extractPptx (env : Env) (filePath : String) : Except Thrown (List ExtractionResult) :=
  tryCatch
    (match env.pptxParse filePath with
     | .error e => .error e
     | .ok slides => .ok (slideResults (basename filePath) slides 0))
    (fun e => [errRec (basename filePath) 1 (e.msgOr pptxFallbackMsg)])

/-! ## PDF extractor -/

def cairoErrMsg (pn : Nat) : String :=
  "pdfToCairo failed for page " ++ toString pn ++
    ". The PDF may be incompatible or the environment may have an issue with the Poppler binary."

def pageErrFallback (pn : Nat) : String := "Error processing page " ++ toString pn

/-- The full-page render result for one page. -/
def imageRec (fn : String) (pn : Nat) (enc : Buffer) : ExtractionResult :=
  { type := some .image, fileName := fn, page := pn,
    contents := some ("data:image/jpeg;base64," ++ enc.b64), isFullPage := some true }

/-- The inner `try` of the full-page render stage: invoke `pdftocairo`,
verify the output file exists (replacing any access failure with the
synthetic "pdftocairo failed to create output file." error), read and
immediately delete it, and re-encode through sharp only when non-empty —
a zero-byte render falls through the `length > 0` guard producing nothing. -/
def cairoTry (pe : PageEnv) (fn : String) (pn : Nat) :
    Except Thrown (List ExtractionResult) :=
  match pe.cairo with
  | .error e => .error e
  | .ok _ =>
    match pe.access with
    | .error _ => .error (.error "pdftocairo failed to create output file.")
    | .ok _ =>
      match pe.readJpeg with
      | .error e => .error e
      | .ok buf =>
        match pe.rmJpeg with
        | .error e => .error e
        | .ok _ =>
          if buf.len > 0 then
            match pe.sharpEnc buf with
            | .error e => .error e
            | .ok enc => .ok [imageRec fn pn enc]
          else .ok []

/-- The full-page render stage with its local `catch (cairoError)`. -/
def cairoStage (pe : PageEnv) (fn : String) (pn : Nat) : List ExtractionResult :=
  match cairoTry pe fn pn with
  | .ok rs => rs
  | .error _ => [errRec fn pn (cairoErrMsg pn)]

/-- MIME type derived from a scratch file's extension
(`path.extname(f).slice(1).toLowerCase()`). -/
def mimeOf (f : String) : String :=
  if jsToLower ((extname f).drop 1) = "png" then "image/png"
  else if jsToLower ((extname f).drop 1) = "jpg" ∨ jsToLower ((extname f).drop 1) = "jpeg" then
    "image/jpeg"
  else if jsToLower ((extname f).drop 1) = "tif" ∨ jsToLower ((extname f).drop 1) = "tiff" then
    "image/tiff"
  else if jsToLower ((extname f).drop 1) = "jp2" then "image/jp2"
  else "image/jpeg"

/-- One embedded-image result. -/
def embRec (fn : String) (pn : Nat) (f : String) (buf : Buffer) : ExtractionResult :=
  { type := some .image, fileName := fn, page := pn,
    contents := some ("data:" ++ mimeOf f ++ ";base64," ++ buf.b64) }

/-- The `for (const imageFile of imageFiles)` loop: read then delete each
scratch file, skipping zero-length buffers. -/
def imageResults (pe : PageEnv) (fn : String) (pn : Nat) :
    List String → List ExtractionResult → Except Thrown (List ExtractionResult)
  | [], acc => .ok acc
  | f :: fs, acc =>
    match pe.readImage f with
    | .error e => .error e
    | .ok buf =>
      match pe.rmImage f with
      | .error e => .error e
      | .ok _ =>
        if buf.len = 0 then imageResults pe fn pn fs acc
        else imageResults pe fn pn fs (acc ++ [embRec fn pn f buf])

/-- Append the page's text result when the trimmed page text is non-empty. -/
def textAppend (pre : List ExtractionResult) (fn : String) (pn : Nat)
    (text : String) : List ExtractionResult :=
  if (jsTrim text).data.isEmpty then pre
  else pre ++ [{ type := some .text, fileName := fn, page := pn,
                 contents := some (jsTrim text) }]

/-- Step 3 of the page loop: a page with zero accumulated results yields one
empty-string text result, so every page contributes at least one record. -/
def fillIfEmpty (fn : String) (pn : Nat) (rs : List ExtractionResult) :
    List ExtractionResult :=
  if rs.isEmpty then
    [{ type := some .text, fileName := fn, page := pn, contents := some "" }]
  else rs

/-- The page-level `try` (text stage, embedded-image stage, empty-page fill)
over the results `pre` accumulated by the full-page render stage. -/
def textImageTry (pe : PageEnv) (fn : String) (pn : Nat)
    (pre : List ExtractionResult) : Except Thrown (List ExtractionResult) :=
  match pe.pdfToText with
  | .error e => .error e
  | .ok text =>
    match pe.mkdirImages with
    | .error e => .error e
    | .ok _ =>
      match pe.pdfImages with
      | .error e => .error e
      | .ok _ =>
        match pe.readdir with
        | .error e => .error e
        | .ok files =>
          match imageResults pe fn pn
              (files.filter (fun f => jsStartsWith f pe.imagePrefixBase))
              (textAppend pre fn pn text) with
          | .error e => .error e
          | .ok r2 => .ok (fillIfEmpty fn pn r2)

/-- The page-level `catch (pageError)`: on failure the per-page accumulator
(`pre` included) is discarded and the page contributes exactly one error
record. -/
def pagePost (pe : PageEnv) (fn : String) (pn : Nat)
    (pre : List ExtractionResult) : Except Thrown (List ExtractionResult) :=
  match textImageTry pe fn pn pre with
  | .ok rs => .ok rs
  | .error e => .ok [errRec fn pn (e.msgOr (pageErrFallback pn))]

/-- One iteration of the page loop. The progress callback and the scratch
`mkdir` of the render stage sit outside every inner `try`, so their failures
escape to `extractPdf`'s top-level catch. -/
def processPage (pe : PageEnv) (hasCb : Bool) (opts : PdfOptions)
    (fn : String) (pn : Nat) : Except Thrown (List ExtractionResult) :=
  match (if hasCb then pe.progressCb else .ok ()) with
  | .error e => .error e
  | .ok _ =>
    match (if opts.fullPageImage then pe.mkdirCairo else .ok ()) with
    | .error e => .error e
    | .ok _ =>
      pagePost pe fn pn (if opts.fullPageImage then cairoStage pe fn pn else [])

/-- Pages `pn, pn+1, …` for `k` remaining pages, appending each page's
results in ascending order. -/
def pagesFrom (env : PdfEnv) (hasCb : Bool) (opts : PdfOptions) (fn : String) :
    Nat → Nat → Except Thrown (List ExtractionResult)
  | 0, _ => .ok []
  | k + 1, pn =>
    match processPage (env.page pn) hasCb opts fn pn with
    | .error e => .error e
    | .ok rs =>
      match pagesFrom env hasCb opts fn k (pn + 1) with
      | .error e => .error e
      | .ok rest => .ok (rs ++ rest)

/-- The body of `extractPdf`'s outer `try`: page-count query, early exit on
an unparsed or zero count, otherwise the page loop from page 1. -/
def extractPdfRun (env : PdfEnv) (hasCb : Bool) (opts : PdfOptions) (fn : String) :
    Except Thrown (List ExtractionResult) :=
  match env.pdfInfo with
  | .error e => .error e
  | .ok info =>
    if infoPageCount info = 0 then
      .ok [errRec fn 1 "Unable to determine PDF page count"]
    else pagesFrom env hasCb opts fn (infoPageCount info) 1

/-- The outer `catch (e)` of `extractPdf`. -/
def pdfCatch (fn : String) (e : Thrown) : List ExtractionResult :=
  [errRec fn 1 (e.msgOr pdfFallbackMsg)]

/-- `DocSuite.extractPdf`. -/
def extractPdf (env : PdfEnv) (filePath : String) (opts : PdfOptions)
    (hasCb : Bool) : Except Thrown (List ExtractionResult) :=
  tryCatch (extractPdfRun env hasCb opts (basename filePath))
    (pdfCatch (basename filePath))

/-! ## The extraction facade -/

/-- The effective extension of line 68: a truthy `options.extension` is
lowercased and used verbatim (an empty-string override is falsy and falls
back to path-derived detection). -/
def resolveExt (filePath : String) (opts : ExtractionOptions) : String :=
  match opts.extension with
  | some e => if e.isEmpty then extOf filePath else jsToLower e
  | none => extOf filePath

/-- The `switch (ext)` dispatch, including the unsupported-extension default
that synthesizes a single error record without invoking any extractor. -/
def dispatch (env : Env) (ext : String) (filePath : String)
    (opts : ExtractionOptions) : Except Thrown (List ExtractionResult) :=
  if ext = ".docx" then extractDocx env filePath
  else if ext = ".xlsx" ∨ ext = ".xls" then extractXlsx env filePath
  else if ext = ".pptx" then extractPptx env filePath
  else if ext = ".pdf" then
    extractPdf env.pdf filePath (opts.pdf.getD {}) opts.hasProgressCallback
  else
    .ok [{ type := none, fileName := basename filePath, page := 1,
           error := some ("DocSuite: unsupported extension \"" ++ ext ++ "\"") }]

/-- `extract` for an already-resolved extension: dispatch, then pipe the
results through the post-processor registry keyed by the same extension. -/
def extractWithExt (reg : Registry) (env : Env) (ext : String)
    (filePath : String) (opts : ExtractionOptions) :
    Except Thrown (List ExtractionResult) :=
  match dispatch env ext filePath opts with
  | .error e => .error e
  | .ok results => applyPostProcessor reg ext results

/-- `DocSuite.extract`, the public entry point. The static registry is the
explicit `reg` argument (read-only during a call). -/
def extract (reg : Registry) (env : Env) (filePath : String)
    (opts : ExtractionOptions) : Except Thrown (List ExtractionResult) :=
  extractWithExt reg env (resolveExt filePath opts) filePath opts

/-! ## Concrete environments used by witnesses and counterexamples -/

/-- A page environment in which every operation succeeds and yields nothing:
no text, no scratch files, a zero-byte full-page render. -/
def stubPage : PageEnv :=
  { progressCb := .ok (), mkdirCairo := .ok (), cairo := .ok (), access := .ok (),
    readJpeg := .ok { len := 0, b64 := "" }, rmJpeg := .ok (),
    sharpEnc := fun b => .ok b, pdfToText := .ok "", mkdirImages := .ok (),
    pdfImages := .ok (), readdir := .ok [], imagePrefixBase := "p",
    readImage := fun _ => .ok { len := 0, b64 := "" }, rmImage := fun _ => .ok () }

/-- A world in which every format parser throws an `Error` naming its format. -/
def stubEnv : Env :=
  { mammoth := fun _ => .error (.error "no docx"),
    xlsxRead := fun _ => .error (.error "no xlsx"),
    pptxParse := fun _ => .error (.error "no pptx"),
    pdf := { pdfInfo := .error (.error "no pdf"), page := fun _ => stubPage } }

/-- A world whose spreadsheet parser succeeds with a workbook declaring no
sheets. -/
def emptyWbEnv : Env :=
  { stubEnv with
    xlsxRead := fun _ => .ok { sheetNames := [], sheetToCsv := fun _ => .ok "" } }

/-- A registry whose only processor (for `.docx`) always throws `boom`. -/
def throwReg : Registry :=
  [(".docx", { processor := fun _ _ => .error (.error "boom") })]

def sampleTextRec : ExtractionResult :=
  { type := some .text, fileName := "a.docx", page := 1, contents := some "hi" }

def samplePage2Rec : ExtractionResult :=
  { type := some .text, fileName := "a.docx", page := 2 }

def pdfMarkerRec : ExtractionResult :=
  { type := some .text, fileName := "marker", page := 99 }

/-- A registry with a `.pdf` processor that replaces any results by a marker
record — visible evidence of whether the lookup key was `.pdf`. -/
def pdfMarkerReg : Registry :=
  [(".pdf", { processor := fun _ _ => .ok [pdfMarkerRec] })]

/-- One-page PDF whose full-page render silently produces a zero-byte file
while the text stage extracts `hello`. -/
def zeroByteRenderEnv : PdfEnv :=
  { pdfInfo := .ok (some "Pages: 1"),
    page := fun _ => { stubPage with pdfToText := .ok "hello" } }

/-- A page whose `pdftocairo` invocation throws. -/
def cairoCrashPage : PageEnv :=
  { stubPage with cairo := .error (.error "tool crashed") }

def fiveByteBuf : Buffer := { len := 5, b64 := "QUJD" }

/-- A page whose full-page render succeeds (a 5-byte image) but whose text
stage then throws. -/
def textCrashPage : PageEnv :=
  { stubPage with
    readJpeg := .ok fiveByteBuf,
    pdfToText := .error (.error "text stage exploded") }

/-- A PDF whose metadata report has no parseable `Pages:` line. -/
def noCountEnv : PdfEnv :=
  { pdfInfo := .ok (some "PageCount unknown"), page := fun _ => stubPage }

/-- A two-page PDF with blank pages. -/
def twoPageEnv : PdfEnv :=
  { pdfInfo := .ok (some "Pages: 2"), page := fun _ => stubPage }

def bindLabel : Option JsVal → String
  | some _ => "bound"
  | none => "unbound"

/-- A processor that records in the output whether it was invoked with a
`this` binding. -/
def bindingProbe : Processor := fun this _ =>
  .ok [{ type := some .text, fileName := bindLabel this, page := 1 }]

/-- The probe registered with the present-but-falsy context `false`. -/
def falsyCtxReg : Registry :=
  [(".docx", { processor := bindingProbe, context := .bool false })]

def idProc : Processor := fun _ rs => .ok rs

/-! ## General lemmas -/

theorem tryCatch_ok_out {α : Type} {body : Except Thrown α} {handler : Thrown → α}
    {a : α} (h : tryCatch body handler = .ok a) :
    body = .ok a ∨ ∃ e, body = .error e ∧ a = handler e := by
  cases hb : body with
  | ok x =>
    rw [hb] at h
    simp only [tryCatch] at h
    exact Or.inl h
  | error e =>
    rw [hb] at h
    simp only [tryCatch] at h
    exact Or.inr ⟨e, rfl, (Except.ok.inj h).symm⟩

theorem regGet_regSet_self (reg : Registry) (k : String) (v : PostProcessorContext) :
    regGet (regSet reg k v) k = some v := by
  induction reg with
  | nil => simp [regSet, regGet]
  | cons hd tl ih =>
    obtain ⟨k', v'⟩ := hd
    by_cases h : k' = k
    · subst h; simp [regSet, regGet]
    · simp [regSet, regGet, h, ih]

theorem regGet_regSet_ne (reg : Registry) (k k2 : String) (v : PostProcessorContext)
    (h : k2 ≠ k) : regGet (regSet reg k v) k2 = regGet reg k2 := by
  induction reg with
  | nil => simp [regSet, regGet, Ne.symm h]
  | cons hd tl ih =>
    obtain ⟨k', v'⟩ := hd
    by_cases hk : k' = k
    · subst hk
      simp [regSet, regGet, Ne.symm h]
    · simp [regSet, regGet, hk, ih]

theorem regGet_regDelete_self (reg : Registry) (k : String) :
    regGet (regDelete reg k) k = none := by
  induction reg with
  | nil => simp [regDelete, regGet]
  | cons hd tl ih =>
    obtain ⟨k', v'⟩ := hd
    by_cases h : k' = k
    · simp [regDelete, h, ih]
    · simp [regDelete, regGet, h, ih]

theorem regGet_regDelete_ne (reg : Registry) (k k2 : String) (h : k2 ≠ k) :
    regGet (regDelete reg k) k2 = regGet reg k2 := by
  induction reg with
  | nil => simp [regDelete]
  | cons hd tl ih =>
    obtain ⟨k', v'⟩ := hd
    by_cases hk : k' = k
    · subst hk
      simp [regDelete, regGet, Ne.symm h, ih]
    · simp [regDelete, regGet, hk, ih]

theorem extractDocx_isOk (env : Env) (fp : String) :
    ∃ rs, extractDocx env fp = .ok rs := by
  unfold extractDocx; exact tryCatch_isOk _ _

theorem extractXlsx_isOk (env : Env) (fp : String) :
    ∃ rs, extractXlsx env fp = .ok rs := by
  unfold extractXlsx; exact tryCatch_isOk _ _

theorem extractPptx_isOk (env : Env) (fp : String) :
    ∃ rs, extractPptx env fp = .ok rs := by
  unfold extractPptx; exact tryCatch_isOk _ _

theorem extractPdf_isOk (env : PdfEnv) (fp : String) (opts : PdfOptions) (hasCb : Bool) :
    ∃ rs, extractPdf env fp opts hasCb = .ok rs := by
  unfold extractPdf; exact tryCatch_isOk _ _

theorem dispatch_isOk (env : Env) (ext : String) (fp : String) (opts : ExtractionOptions) :
    ∃ rs, dispatch env ext fp opts = .ok rs := by
  unfold dispatch
  split
  · exact extractDocx_isOk env fp
  · split
    · exact extractXlsx_isOk env fp
    · split
      · exact extractPptx_isOk env fp
      · split
        · exact extractPdf_isOk env.pdf fp (opts.pdf.getD {}) opts.hasProgressCallback
        · exact ⟨_, rfl⟩

theorem applyPostProcessor_isOk (reg : Registry) (ext : String)
    (results : List ExtractionResult) :
    ∃ rs, applyPostProcessor reg ext results = .ok rs := by
  unfold applyPostProcessor
  split
  · exact ⟨_, rfl⟩
  · exact tryCatch_isOk _ _

theorem fillIfEmpty_ne (fn : String) (pn : Nat) (rs : List ExtractionResult) :
    fillIfEmpty fn pn rs ≠ [] := by
  cases rs <;> simp [fillIfEmpty]

theorem textImageTry_ok_ne (pe : PageEnv) (fn : String) (pn : Nat)
    (pre : List ExtractionResult) (rs : List ExtractionResult)
    (h : textImageTry pe fn pn pre = .ok rs) : rs ≠ [] := by
  unfold textImageTry at h
  split at h
  · simp at h
  · split at h
    · simp at h
    · split at h
      · simp at h
      · split at h
        · simp at h
        · split at h
          · simp at h
          · simp only [Except.ok.injEq] at h
            rw [← h]
            exact fillIfEmpty_ne fn pn _

theorem pagePost_ok_ne (pe : PageEnv) (fn : String) (pn : Nat)
    (pre : List ExtractionResult) (rs : List ExtractionResult)
    (h : pagePost pe fn pn pre = .ok rs) : rs ≠ [] := by
  unfold pagePost at h
  split at h
  · next rs' heq =>
    simp only [Except.ok.injEq] at h
    rw [← h]
    exact textImageTry_ok_ne pe fn pn pre rs' heq
  · simp only [Except.ok.injEq] at h
    rw [← h]
    simp

theorem processPage_ok_ne (pe : PageEnv) (hasCb : Bool) (opts : PdfOptions)
    (fn : String) (pn : Nat) (rs : List ExtractionResult)
    (h : processPage pe hasCb opts fn pn = .ok rs) : rs ≠ [] := by
  unfold processPage at h
  split at h
  · simp at h
  · split at h
    · simp at h
    · exact pagePost_ok_ne pe fn pn _ rs h

theorem pagesFrom_ok_ne (env : PdfEnv) (hasCb : Bool) (opts : PdfOptions)
    (fn : String) (k pn : Nat) (rs : List ExtractionResult)
    (h : pagesFrom env hasCb opts fn (k + 1) pn = .ok rs) : rs ≠ [] := by
  unfold pagesFrom at h
  split at h
  · simp at h
  · next rs1 heq1 =>
    split at h
    · simp at h
    · simp only [Except.ok.injEq] at h
      rw [← h]
      intro hc
      exact processPage_ok_ne (env.page pn) hasCb opts fn pn rs1 heq1
        (List.append_eq_nil.mp hc).1

theorem extractPdf_ok_ne (env : PdfEnv) (fp : String) (opts : PdfOptions)
    (hasCb : Bool) (rs : List ExtractionResult)
    (h : extractPdf env fp opts hasCb = .ok rs) : rs ≠ [] := by
  unfold extractPdf at h
  rcases tryCatch_ok_out h with hbody | ⟨e, _, ha⟩
  · unfold extractPdfRun at hbody
    split at hbody
    · simp at hbody
    · split at hbody
      · simp only [Except.ok.injEq] at hbody
        rw [← hbody]
        simp
      · next hnz =>
        obtain ⟨k, hk⟩ := Nat.exists_eq_succ_of_ne_zero hnz
        rw [hk] at hbody
        exact pagesFrom_ok_ne env hasCb opts (basename fp) k 1 rs hbody
  · rw [ha]
    simp [pdfCatch]

theorem sheetResults_ok_ne (wb : Workbook) (fn : String) (n : String)
    (rest : List String) (i : Nat) (rs : List ExtractionResult)
    (h : sheetResults wb fn (n :: rest) i = .ok rs) : rs ≠ [] := by
  unfold sheetResults at h
  split at h
  · simp at h
  · split at h
    · simp at h
    · simp only [Except.ok.injEq] at h
      rw [← h]
      simp

/-! ## Claim theorems -/

/-- C2: for every registry, every behaviour of the format parsers, PDF
tools, filesystem and post-processors (throwing or not), and every path and
options, `extract` settles successfully — it never propagates a thrown
error; all failures surface only as data in the returned records. -/
theorem extract_never_rejects (reg : Registry) (env : Env) (fp : String)
    (opts : ExtractionOptions) : ∃ rs, extract reg env fp opts = .ok rs := by
  unfold extract extractWithExt
  obtain ⟨rs, hrs⟩ := dispatch_isOk env (resolveExt fp opts) fp opts
  rw [hrs]
  exact applyPostProcessor_isOk reg (resolveExt fp opts) rs

/-- C3: when the registered processor for `ext` throws (or its promise
rejects) with `e`, `applyPostProcessor` returns the original pre-processing
sequence with only the first record's `error` field overwritten by
`"Post-processor error: <message>"`, discarding the processor's attempted
output; an empty sequence is returned unchanged. -/
theorem postProcessor_failure_keeps_original (reg : Registry) (ext : String)
    (results : List ExtractionResult) (cfg : PostProcessorContext) (e : Thrown)
    (hreg : regGet reg ext = some cfg)
    (hfail : invokeProcessor cfg results = .error e) :
    applyPostProcessor reg ext results = .ok (postFailure results e) ∧
    postFailure ([] : List ExtractionResult) e = [] ∧
    ∀ r rest, postFailure (r :: rest) e =
      { r with error := some ("Post-processor error: " ++ e.toStr) } :: rest := by
  refine ⟨?_, rfl, fun r rest => rfl⟩
  simp only [applyPostProcessor, hreg, tryCatch, hfail]

/-- C3 witness: a two-record sequence through an always-throwing `.docx`
processor keeps both records, with only the first one's error overwritten. -/
theorem postProcessor_failure_witness :
    applyPostProcessor throwReg ".docx" [sampleTextRec, samplePage2Rec] =
      .ok [{ sampleTextRec with error := some "Post-processor error: boom" },
           samplePage2Rec] := by
  have h := postProcessor_failure_keeps_original throwReg ".docx"
    [sampleTextRec, samplePage2Rec]
    { processor := fun _ _ => .error (.error "boom") } (.error "boom") rfl rfl
  rw [h.1]
  rfl

/-- C7: when the resolved extension matches none of the supported ones,
`extract` invokes no extractor and produces exactly one synthetic record
(`type` absent, `fileName` the base name, `page` 1, the quoting error
message), and the post-processor step still runs over it keyed by that same
resolved extension. -/
theorem unsupported_extension_single_result (reg : Registry) (env : Env)
    (fp : String) (opts : ExtractionOptions)
    (h1 : resolveExt fp opts ≠ ".docx") (h2 : resolveExt fp opts ≠ ".xlsx")
    (h3 : resolveExt fp opts ≠ ".xls") (h4 : resolveExt fp opts ≠ ".pptx")
    (h5 : resolveExt fp opts ≠ ".pdf") :
    extract reg env fp opts =
      applyPostProcessor reg (resolveExt fp opts)
        [{ type := none, fileName := basename fp, page := 1,
           error := some ("DocSuite: unsupported extension \"" ++
             resolveExt fp opts ++ "\"") }] := by
  unfold extract extractWithExt dispatch
  rw [if_neg h1, if_neg (not_or.mpr ⟨h2, h3⟩), if_neg h4, if_neg h5]

/-- C7 witness: a `.txt` path with no registered processors yields exactly
the synthetic unsupported-extension record. -/
theorem unsupported_extension_witness :
    extract [] stubEnv "a.txt" {} =
      .ok [{ type := none, fileName := "a.txt", page := 1,
             error := some "DocSuite: unsupported extension \".txt\"" }] := by
  rw [unsupported_extension_single_result [] stubEnv "a.txt" {}
    (by decide) (by decide) (by decide) (by decide) (by decide)]
  rfl

/-- C8 counterexample: a processor registered as `{handler, context}` with
the present but falsy context `false` is invoked UNBOUND (the probe records
`"unbound"`), refuting the claim that every present context — including
falsy ones — is used as the invocation target. -/
theorem falsy_context_unbound_counterexample :
    applyPostProcessor falsyCtxReg ".docx" [] =
      .ok [{ type := some .text, fileName := "unbound", page := 1 }] := rfl

/-- C8 (amended): the handler is invoked with the registered context as its
invocation target exactly when that context is truthy; a plain-function
registration (context `undefined`) or any falsy context value leads to an
unbound invocation. -/
theorem context_binding_truthiness (cfg : PostProcessorContext)
    (results : List ExtractionResult) :
    (cfg.context.truthy = true →
       invokeProcessor cfg results = cfg.processor (some cfg.context) results) ∧
    (cfg.context.truthy = false →
       invokeProcessor cfg results = cfg.processor none results) ∧
    (∀ p : Processor, toCtx (.fn p) = { processor := p, context := .undefV }) ∧
    (∀ (hd : Processor) (c : JsVal),
       toCtx (.obj hd c) = { processor := hd, context := c }) := by
  refine ⟨fun ht => ?_, fun hf => ?_, fun p => rfl, fun hd c => rfl⟩
  · simp [invokeProcessor, ht]
  · simp [invokeProcessor, hf]

/-- C8 witness: a truthy context binds the probe (it reports `"bound"`);
the falsy context `false` leaves it unbound. -/
theorem context_binding_witness :
    invokeProcessor { processor := bindingProbe, context := .str "ctx" } [] =
      bindingProbe (some (.str "ctx")) [] ∧
    invokeProcessor { processor := bindingProbe, context := .bool false } [] =
      bindingProbe none [] :=
  ⟨(context_binding_truthiness { processor := bindingProbe, context := .str "ctx" } []).1 rfl,
   (context_binding_truthiness { processor := bindingProbe, context := .bool false } []).2.1 rfl⟩

/-- C10: `setXlsxPostProcessor` creates independent `.xlsx` and `.xls`
entries; `clearPostProcessor ".xlsx"` removes only the `.xlsx` entry,
leaves `.xls` mapped to the registered processor (which `extract` on a
`.xls` file therefore still applies), and leaves every other key unchanged. -/
theorem xlsx_clear_frame (reg : Registry) (input : PostProcessorInput) :
    regGet (clearPostProcessor ".xlsx" (setXlsxPostProcessor input reg)) ".xls" =
      some (toCtx input) ∧
    regGet (clearPostProcessor ".xlsx" (setXlsxPostProcessor input reg)) ".xlsx" =
      none ∧
    (∀ k, k ≠ ".xlsx" →
       regGet (clearPostProcessor ".xlsx" (setXlsxPostProcessor input reg)) k =
         regGet (setXlsxPostProcessor input reg) k) ∧
    ∀ results,
      applyPostProcessor (clearPostProcessor ".xlsx" (setXlsxPostProcessor input reg))
          ".xls" results =
        tryCatch (invokeProcessor (toCtx input) results)
          (fun e => postFailure results e) := by
  have hget : regGet (clearPostProcessor ".xlsx" (setXlsxPostProcessor input reg))
      ".xls" = some (toCtx input) := by
    show regGet (regDelete (setXlsxPostProcessor input reg) ".xlsx") ".xls" =
      some (toCtx input)
    rw [regGet_regDelete_ne _ _ _ (by decide)]
    exact regGet_regSet_self _ _ _
  refine ⟨hget, ?_, fun k hk => ?_, fun results => ?_⟩
  · exact regGet_regDelete_self _ _
  · exact regGet_regDelete_ne _ _ _ hk
  · simp only [applyPostProcessor, hget]

/-- C10 witness: with the identity processor registered via
`setXlsxPostProcessor` on an empty registry, clearing `.xlsx` keeps the
`.xls` entry, drops the `.xlsx` entry, and leaves `.pdf` unregistered. -/
theorem xlsx_clear_frame_witness :
    regGet (clearPostProcessor ".xlsx" (setXlsxPostProcessor (.fn idProc) [])) ".xls" =
      some { processor := idProc, context := .undefV } ∧
    regGet (clearPostProcessor ".xlsx" (setXlsxPostProcessor (.fn idProc) [])) ".xlsx" =
      none ∧
    regGet (clearPostProcessor ".xlsx" (setXlsxPostProcessor (.fn idProc) [])) ".pdf" =
      regGet (setXlsxPostProcessor (.fn idProc) []) ".pdf" :=
  ⟨(xlsx_clear_frame [] (.fn idProc)).1,
   (xlsx_clear_frame [] (.fn idProc)).2.1,
   (xlsx_clear_frame [] (.fn idProc)).2.2.1 ".pdf" (by decide)⟩

/-- C4 counterexample: the override `"PDF"` without a leading dot is NOT
normalized — the call dispatches to the unsupported-extension branch (not
the PDF extractor, whose marker post-processor under `".pdf"` is also never
consulted: the lookup key is the dotless `"pdf"`), refuting the claimed
dot normalization. -/
theorem extension_override_no_dot_counterexample :
    extract pdfMarkerReg stubEnv "file.txt" { extension := some "PDF" } =
      .ok [{ type := none, fileName := "file.txt", page := 1,
             error := some "DocSuite: unsupported extension \"pdf\"" }] := rfl

/-- C4 (amended): a non-empty extension override is lowercased and used
VERBATIM — with no leading-dot normalization — as the extension for both
format dispatch and the post-processor lookup, taking precedence over
path-derived detection; only an override that already includes the dot
(e.g. `".PDF"`) reaches the matching extractor. -/
theorem extension_override_lowercase_verbatim (reg : Registry) (env : Env)
    (fp : String) (opts : ExtractionOptions) (e : String)
    (h : opts.extension = some e) (hne : e.isEmpty = false) :
    resolveExt fp opts = jsToLower e ∧
    extract reg env fp opts = extractWithExt reg env (jsToLower e) fp opts := by
  have h1 : resolveExt fp opts = jsToLower e := by
    simp [resolveExt, h, hne]
  exact ⟨h1, by unfold extract; rw [h1]⟩

/-- C4 witness: the dotted override `".PDF"` resolves to `".pdf"` and drives
both dispatch and lookup, regardless of the `.txt` path. -/
theorem extension_override_witness :
    resolveExt "file.txt" { extension := some ".PDF" } = ".pdf" ∧
    extract pdfMarkerReg stubEnv "file.txt" { extension := some ".PDF" } =
      extractWithExt pdfMarkerReg stubEnv ".pdf" "file.txt"
        { extension := some ".PDF" } := by
  have h := extension_override_lowercase_verbatim pdfMarkerReg stubEnv "file.txt"
    { extension := some ".PDF" } ".PDF" rfl rfl
  have e1 : jsToLower ".PDF" = ".pdf" := rfl
  exact ⟨h.1.trans e1, e1 ▸ h.2⟩

/-- C5: the page count comes from `infoPageCount` — the model of matching
`/Pages:\s+(\d+)/` against the metadata report and `parseInt` of the
capture; when nothing matches or the count parses as `0`, `extractPdf`
returns exactly one `type`-absent record with `page = 1` and error
`"Unable to determine PDF page count"`, and no per-page processing runs;
a non-zero parsed count `k + 1` instead enters the page loop at page 1. -/
theorem pdf_page_count_parse (env : PdfEnv) (fp : String) (opts : PdfOptions)
    (hasCb : Bool) (info : Option String) (h : env.pdfInfo = .ok info) :
    (infoPageCount info = 0 →
       extractPdf env fp opts hasCb =
         .ok [errRec (basename fp) 1 "Unable to determine PDF page count"]) ∧
    ∀ k, infoPageCount info = k + 1 →
      extractPdf env fp opts hasCb =
        tryCatch (pagesFrom env hasCb opts (basename fp) (k + 1) 1)
          (pdfCatch (basename fp)) := by
  constructor
  · intro h0
    simp [extractPdf, extractPdfRun, h, h0, tryCatch, errRec]
  · intro k hk
    simp [extractPdf, extractPdfRun, h, hk]

/-- C5 witness: a report with no `Pages:` line yields the single error
record; a `Pages: 2` report enters the two-page loop. -/
theorem pdf_page_count_witness :
    extractPdf noCountEnv "x.pdf" {} false =
      .ok [errRec "x.pdf" 1 "Unable to determine PDF page count"] ∧
    extractPdf twoPageEnv "b.pdf" {} false =
      tryCatch (pagesFrom twoPageEnv false {} "b.pdf" 2 1) (pdfCatch "b.pdf") :=
  ⟨(pdf_page_count_parse noCountEnv "x.pdf" {} false
      (some "PageCount unknown") rfl).1 rfl,
   (pdf_page_count_parse twoPageEnv "b.pdf" {} false
      (some "Pages: 2") rfl).2 1 rfl⟩

/-- C6 counterexample: a full-page render that silently produces a ZERO-BYTE
file is skipped without any record — the page's only output is its text
result, with no `type`-absent error record — refuting the claim that a
zero-byte image is recorded as an error result. -/
theorem fullpage_zero_byte_counterexample :
    extractPdf zeroByteRenderEnv "d.pdf" { fullPageImage := true } false =
      .ok [{ type := some .text, fileName := "d.pdf", page := 1,
             contents := some "hello" }] := rfl

/-- C6 (amended): a THROWN failure of the full-page render stage (tool
failure, or the missing-output existence check raising "pdftocairo failed
to create output file.") is caught locally and recorded as one
`type`-absent record with the stage's descriptive error, and the text and
embedded-image stages still run afterwards over that record; a zero-byte
rendered image instead contributes nothing at all (no record, no error). -/
theorem fullpage_render_failure_amended (pe : PageEnv) (fn : String) (pn : Nat) :
    (∀ e, cairoTry pe fn pn = .error e →
       cairoStage pe fn pn = [errRec fn pn (cairoErrMsg pn)]) ∧
    (∀ buf, pe.cairo = .ok () → pe.access = .ok () → pe.readJpeg = .ok buf →
       pe.rmJpeg = .ok () → buf.len = 0 → cairoStage pe fn pn = []) ∧
    ∀ hasCb opts, opts.fullPageImage = true →
      (if hasCb then pe.progressCb else .ok ()) = .ok () →
      pe.mkdirCairo = .ok () →
      processPage pe hasCb opts fn pn = pagePost pe fn pn (cairoStage pe fn pn) := by
  refine ⟨fun e he => ?_, fun buf hc ha hr hrm hlen => ?_, fun hasCb opts hfp hcb hmk => ?_⟩
  · simp only [cairoStage, he]
  · simp only [cairoStage, cairoTry, hc, ha, hr, hrm, hlen]
    simp
  · simp only [processPage, hfp, if_true, hcb, hmk]

/-- C6 witness: a crashing `pdftocairo` yields the page's descriptive error
record from the render stage, and on a full page the text stage still runs
(the extracted text follows the error record in the final output). -/
theorem fullpage_render_failure_witness :
    cairoStage cairoCrashPage "w.pdf" 2 = [errRec "w.pdf" 2 (cairoErrMsg 2)] ∧
    cairoStage stubPage "w.pdf" 2 = [] ∧
    processPage cairoCrashPage false { fullPageImage := true } "w.pdf" 2 =
      pagePost cairoCrashPage "w.pdf" 2 (cairoStage cairoCrashPage "w.pdf" 2) :=
  ⟨(fullpage_render_failure_amended cairoCrashPage "w.pdf" 2).1
      (.error "tool crashed") rfl,
   (fullpage_render_failure_amended stubPage "w.pdf" 2).2.1
      { len := 0, b64 := "" } rfl rfl rfl rfl rfl,
   (fullpage_render_failure_amended cairoCrashPage "w.pdf" 2).2.2
      false { fullPageImage := true } rfl rfl rfl⟩

/-- C9: when the page-level try (text or embedded-image stage) throws after
the full-page render stage already accumulated results, those accumulated
results are discarded: the page contributes exactly the single
`type`-absent error record from the page-level catch, never a mix of a
render result and a page-level error record. -/
theorem page_error_discards_accumulated (pe : PageEnv) (hasCb : Bool)
    (opts : PdfOptions) (fn : String) (pn : Nat) (e : Thrown)
    (hcb : (if hasCb then pe.progressCb else .ok ()) = .ok ())
    (hmk : (if opts.fullPageImage then pe.mkdirCairo else .ok ()) = .ok ())
    (htxt : textImageTry pe fn pn
        (if opts.fullPageImage then cairoStage pe fn pn else []) = .error e) :
    processPage pe hasCb opts fn pn =
      .ok [errRec fn pn (e.msgOr (pageErrFallback pn))] := by
  simp only [processPage, hcb, hmk, pagePost, htxt]

/-- C9 witness: the render stage produced a full-page image for page 1, the
text stage then throws — the page's output is exactly the single error
record; the image is discarded. -/
theorem page_error_discards_witness :
    processPage textCrashPage false { fullPageImage := true } "w.pdf" 1 =
      .ok [errRec "w.pdf" 1 "text stage exploded"] :=
  page_error_discards_accumulated textCrashPage false { fullPageImage := true }
    "w.pdf" 1 (.error "text stage exploded") rfl rfl rfl

/-- C1 counterexample: a workbook whose declared sheet list is empty makes
`extract` return the EMPTY sequence (the per-sheet map produces no records
and no post-processor is registered), refuting the claim that every call
yields a non-empty sequence regardless of the parser's output. -/
theorem extract_empty_workbook_counterexample :
    extract [] emptyWbEnv "book.xlsx" {} = .ok [] := rfl

/-- C1 (amended): `extractDocx` and `extractPdf` always yield a non-empty
sequence; `extractXlsx`/`extractPptx` yield one record per declared
sheet/slide — hence the empty sequence exactly when the parser succeeds
with zero sheets/slides, and a non-empty one otherwise; a totally
unparseable document yields exactly one record with `page = 1`, absent
`type` and a descriptive error; and `extract` returns the dispatched
extractor's sequence unchanged whenever no post-processor is registered
for the resolved extension. -/
theorem extract_nonempty_amended (reg : Registry) (env : Env) (fp : String)
    (opts : ExtractionOptions) (popts : PdfOptions) (hasCb : Bool) :
    (∀ rs, extractDocx env fp = .ok rs → rs ≠ []) ∧
    (∀ rs, extractPdf env.pdf fp popts hasCb = .ok rs → rs ≠ []) ∧
    (∀ wb, env.xlsxRead fp = .ok wb → wb.sheetNames = [] →
       extractXlsx env fp = .ok []) ∧
    (∀ wb rs, env.xlsxRead fp = .ok wb → wb.sheetNames ≠ [] →
       extractXlsx env fp = .ok rs → rs ≠ []) ∧
    (∀ sl, env.pptxParse fp = .ok sl → sl = [] → extractPptx env fp = .ok []) ∧
    (∀ sl rs, env.pptxParse fp = .ok sl → sl ≠ [] →
       extractPptx env fp = .ok rs → rs ≠ []) ∧
    (∀ e, env.mammoth fp = .error e →
       extractDocx env fp = .ok [errRec (basename fp) 1 (e.msgOr docxFallbackMsg)]) ∧
    (∀ e, env.xlsxRead fp = .error e →
       extractXlsx env fp = .ok [errRec (basename fp) 1 (e.msgOr xlsxFallbackMsg)]) ∧
    (∀ e, env.pptxParse fp = .error e →
       extractPptx env fp = .ok [errRec (basename fp) 1 (e.msgOr pptxFallbackMsg)]) ∧
    (∀ e, env.pdf.pdfInfo = .error e →
       extractPdf env.pdf fp popts hasCb =
         .ok [errRec (basename fp) 1 (e.msgOr pdfFallbackMsg)]) ∧
    (regGet reg (resolveExt fp opts) = none →
       extract reg env fp opts = dispatch env (resolveExt fp opts) fp opts) := by
  refine ⟨fun rs h => ?_, fun rs h => extractPdf_ok_ne env.pdf fp popts hasCb rs h,
    fun wb hwb hempty => ?_, fun wb rs hwb hne hok => ?_,
    fun sl hp hempty => ?_, fun sl rs hp hne hok => ?_,
    fun e he => ?_, fun e he => ?_, fun e he => ?_, fun e he => ?_,
    fun hnone => ?_⟩
  · unfold extractDocx at h
    rcases tryCatch_ok_out h with hbody | ⟨e, _, ha⟩
    · split at hbody
      · simp at hbody
      · simp only [Except.ok.injEq] at hbody
        rw [← hbody]
        simp
    · rw [ha]
      simp
  · simp [extractXlsx, hwb, hempty, sheetResults, tryCatch]
  · unfold extractXlsx at hok
    rcases tryCatch_ok_out hok with hbody | ⟨e, _, ha⟩
    · simp only [hwb] at hbody
      cases hsn : wb.sheetNames with
      | nil => exact absurd hsn hne
      | cons n rest =>
        rw [hsn] at hbody
        exact sheetResults_ok_ne wb (basename fp) n rest 0 rs hbody
    · rw [ha]
      simp
  · simp [extractPptx, hp, hempty, slideResults, tryCatch]
  · unfold extractPptx at hok
    rcases tryCatch_ok_out hok with hbody | ⟨e, _, ha⟩
    · simp only [hp, Except.ok.injEq] at hbody
      cases hsl : sl with
      | nil => exact absurd hsl hne
      | cons s srest =>
        rw [hsl] at hbody
        rw [← hbody]
        simp [slideResults]
    · rw [ha]
      simp
  · simp [extractDocx, he, tryCatch]
  · simp [extractXlsx, he, tryCatch]
  · simp [extractPptx, he, tryCatch]
  · simp [extractPdf, extractPdfRun, he, tryCatch, pdfCatch]
  · unfold extract extractWithExt
    obtain ⟨rs, hrs⟩ := dispatch_isOk env (resolveExt fp opts) fp opts
    simp [hrs, applyPostProcessor, hnone]

/-- C1 witness: with every parser throwing, each extractor yields exactly
the single descriptive error record; with zero declared sheets the
spreadsheet extractor yields the empty sequence. -/
theorem extract_nonempty_amended_witness :
    extractDocx stubEnv "a.docx" = .ok [errRec "a.docx" 1 "no docx"] ∧
    extractXlsx emptyWbEnv "book.xlsx" = .ok [] ∧
    extractPdf stubEnv.pdf "c.pdf" {} false = .ok [errRec "c.pdf" 1 "no pdf"] := by
  have h1 := extract_nonempty_amended [] stubEnv "a.docx" {} {} false
  have h2 := extract_nonempty_amended [] emptyWbEnv "book.xlsx" {} {} false
  have h3 := extract_nonempty_amended [] stubEnv "c.pdf" {} {} false
  exact ⟨h1.2.2.2.2.2.2.1 (.error "no docx") rfl,
    h2.2.2.1 { sheetNames := [], sheetToCsv := fun _ => .ok "" } rfl rfl,
    h3.2.2.2.2.2.2.2.2.2.1 (.error "no pdf") rfl⟩

end DocSuite
